import Mathlib

set_option maxRecDepth 100000

/-!
Verification of the binderhub build-and-launch orchestrator
(`binderhub/builder.py`, `binderhub/launcher.py`) against its
natural-language specification.

Python strings are modelled as `List Char`; machine integers are `Nat`
with explicit `% 2 ^ 32` where overflow matters; a byte is a `Nat`
below 256.  Fallible code returns `Except` or an explicit outcome tag.
-/

namespace Binder

/-! ### Python string primitives (ASCII fragment used by the code) -/

/-- `str.lower` restricted to ASCII letters: the 26 uppercase letters map to
their lowercase counterparts, every other character is unchanged.  All inputs
appearing in the verified claims are ASCII. -/
def lowerChar : Char → Char
  | 'A' => 'a' | 'B' => 'b' | 'C' => 'c' | 'D' => 'd' | 'E' => 'e'
  | 'F' => 'f' | 'G' => 'g' | 'H' => 'h' | 'I' => 'i' | 'J' => 'j'
  | 'K' => 'k' | 'L' => 'l' | 'M' => 'm' | 'N' => 'n' | 'O' => 'o'
  | 'P' => 'p' | 'Q' => 'q' | 'R' => 'r' | 'S' => 's' | 'T' => 't'
  | 'U' => 'u' | 'V' => 'v' | 'W' => 'w' | 'X' => 'x' | 'Y' => 'y'
  | 'Z' => 'z'
  | c => c

/-- `s.lower()` on the ASCII fragment. -/
def pyLower (s : List Char) : List Char := s.map lowerChar

/-- `s.replace(a, b)` for single characters. -/
def pyReplace (a b : Char) (s : List Char) : List Char :=
  s.map fun c => if c = a then b else c

/-- Remove leading occurrences of `ch` (left half of `str.strip(ch)`). -/
def lstripChar (ch : Char) (s : List Char) : List Char :=
  s.dropWhile fun c => c = ch

/-- Remove trailing occurrences of `ch` (right half of `str.strip(ch)`). -/
def rstripChar (ch : Char) : List Char → List Char
  | [] => []
  | c :: rest =>
    let r := rstripChar ch rest
    if r = [] ∧ c = ch then [] else c :: r

/-- `s.strip(ch)`: remove `ch` from both ends. -/
def pyStrip (ch : Char) (s : List Char) : List Char :=
  lstripChar ch (rstripChar ch s)

/-- `s.rstrip(cs)`: remove any trailing characters belonging to `cs`. -/
def pyRstrip (cs : List Char) (s : List Char) : List Char :=
  (s.reverse.dropWhile fun c => cs.contains c).reverse

/-- Python's `sub in s` substring test. -/
def listContains (pat : List Char) : List Char → Bool
  | [] => decide (pat = [])
  | c :: rest => pat.isPrefixOf (c :: rest) || listContains pat rest

/-- `s.split(sep, 1)[1]`: the portion after the first occurrence of `sep`
(callers guarantee `sep` occurs). -/
def afterFirst (sep : Char) (s : List Char) : List Char :=
  (s.dropWhile fun c => c ≠ sep).drop 1

/-! ### UTF-8 encoding (`str.encode('utf-8')`) -/

/-- UTF-8 bytes of a single code point. -/
def utf8Char (c : Nat) : List Nat :=
  if c < 128 then [c]
  else if c < 2048 then [192 + c / 64, 128 + c % 64]
  else if c < 65536 then [224 + c / 4096, 128 + c / 64 % 64, 128 + c % 64]
  else [240 + c / 262144, 128 + c / 4096 % 64, 128 + c / 64 % 64, 128 + c % 64]

/-- `s.encode('utf-8')` as a byte list. -/
def utf8Encode (s : List Char) : List Nat :=
  (s.map fun c => utf8Char c.toNat).flatten

/-! ### SHA-256 (`hashlib.sha256(...).hexdigest()`)

Executable 32-bit model: words are `Nat` reduced mod `2 ^ 32`; the bitwise
operations are defined by fuel-bounded digit recursion so that the kernel can
evaluate them (no well-founded recursion). -/

/-- Bitwise AND on the low `fuel` bits. -/
def bitAndAux : Nat → Nat → Nat → Nat
  | 0, _, _ => 0
  | fuel + 1, a, b =>
    (if a % 2 = 1 ∧ b % 2 = 1 then 1 else 0) + 2 * bitAndAux fuel (a / 2) (b / 2)

/-- Bitwise XOR on the low `fuel` bits. -/
def bitXorAux : Nat → Nat → Nat → Nat
  | 0, _, _ => 0
  | fuel + 1, a, b =>
    (if a % 2 + b % 2 = 1 then 1 else 0) + 2 * bitXorAux fuel (a / 2) (b / 2)

/-- 32-bit AND. -/
def land32 (a b : Nat) : Nat := bitAndAux 32 a b

/-- 32-bit XOR. -/
def lxor32 (a b : Nat) : Nat := bitXorAux 32 a b

/-- 32-bit complement (input below `2 ^ 32`). -/
def lnot32 (a : Nat) : Nat := 4294967295 - a % 4294967296

/-- Right rotation of a 32-bit word by `n` places. -/
def rotr32 (n x : Nat) : Nat :=
  (x / 2 ^ n + x % 2 ^ n * 2 ^ (32 - n)) % 4294967296

/-- Logical right shift. -/
def shr32 (n x : Nat) : Nat := x / 2 ^ n

/-- Schedule sigma0. -/
def schedSig0 (x : Nat) : Nat := lxor32 (lxor32 (rotr32 7 x) (rotr32 18 x)) (shr32 3 x)

/-- Schedule sigma1. -/
def schedSig1 (x : Nat) : Nat := lxor32 (lxor32 (rotr32 17 x) (rotr32 19 x)) (shr32 10 x)

/-- Compression Sigma0. -/
def roundSig0 (x : Nat) : Nat := lxor32 (lxor32 (rotr32 2 x) (rotr32 13 x)) (rotr32 22 x)

/-- Compression Sigma1. -/
def roundSig1 (x : Nat) : Nat := lxor32 (lxor32 (rotr32 6 x) (rotr32 11 x)) (rotr32 25 x)

/-- Choice function. -/
def shaCh (e f g : Nat) : Nat := lxor32 (land32 e f) (land32 (lnot32 e) g)

/-- Majority function. -/
def shaMaj (a b c : Nat) : Nat :=
  lxor32 (lxor32 (land32 a b) (land32 a c)) (land32 b c)

/-- The 64 SHA-256 round constants (FIPS 180-4), written in decimal. -/
def shaK : List Nat :=
  [1116352408, 1899447441, 3049323471, 3921009573, 961987163, 1508970993,
   2453635748, 2870763221, 3624381080, 310598401, 607225278, 1426881987,
   1925078388, 2162078206, 2614888103, 3248222580, 3835390401, 4022224774,
   264347078, 604807628, 770255983, 1249150122, 1555081692, 1996064986,
   2554220882, 2821834349, 2952996808, 3210313671, 3336571891, 3584528711,
   113926993, 338241895, 666307205, 773529912, 1294757372, 1396182291,
   1695183700, 1986661051, 2177026350, 2456956037, 2730485921, 2820302411,
   3259730800, 3345764771, 3516065817, 3600352804, 4094571909, 275423344,
   430227734, 506948616, 659060556, 883997877, 958139571, 1322822218,
   1537002063, 1747873779, 1955562222, 2024104815, 2227730452, 2361852424,
   2428436474, 2756734187, 3204031479, 3329325298]

/-- Big-endian 8-byte encoding of the bit length. -/
def be8Bytes (l : Nat) : List Nat :=
  [l / 72057594037927936 % 256, l / 281474976710656 % 256,
   l / 1099511627776 % 256, l / 4294967296 % 256, l / 16777216 % 256,
   l / 65536 % 256, l / 256 % 256, l % 256]

/-- SHA-256 padding: append `0x80`, zeros to 56 mod 64, then the 64-bit
big-endian bit length. -/
def shaPad (msg : List Nat) : List Nat :=
  let zeros := (119 - msg.length % 64) % 64
  msg ++ 128 :: List.replicate zeros 0 ++ be8Bytes (8 * msg.length)

/-- Big-endian 32-bit words from bytes (length a multiple of 4). -/
def toWords : List Nat → List Nat
  | b0 :: b1 :: b2 :: b3 :: rest =>
    (b0 * 16777216 + b1 * 65536 + b2 * 256 + b3) :: toWords rest
  | _ => []

/-- Split a word list into blocks of 16 (length a multiple of 16). -/
def blocks16 : List Nat → List (List Nat)
  | w0 :: w1 :: w2 :: w3 :: w4 :: w5 :: w6 :: w7 ::
    w8 :: w9 :: w10 :: w11 :: w12 :: w13 :: w14 :: w15 :: rest =>
    [w0, w1, w2, w3, w4, w5, w6, w7, w8, w9, w10, w11, w12, w13, w14, w15] ::
      blocks16 rest
  | _ => []

/-- Message-schedule extension: `ws` is the reversed word list (most recent
first); run `fuel` extension steps. -/
def shaExtend : Nat → List Nat → List Nat
  | 0, ws => ws
  | fuel + 1, ws =>
    shaExtend fuel
      ((schedSig1 (ws.getD 1 0) + ws.getD 6 0 + schedSig0 (ws.getD 14 0) + ws.getD 15 0)
          % 4294967296 :: ws)

/-- The 64-word schedule of one 16-word block. -/
def shaSchedule (block : List Nat) : List Nat :=
  (shaExtend 48 block.reverse).reverse

/-- The eight working registers. -/
structure ShaState where
  a : Nat
  b : Nat
  c : Nat
  d : Nat
  e : Nat
  f : Nat
  g : Nat
  hh : Nat
deriving Repr, DecidableEq

/-- One compression round with constant `k` and schedule word `w`. -/
def shaRound (st : ShaState) (kw : Nat × Nat) : ShaState :=
  let t1 := (st.hh + roundSig1 st.e + shaCh st.e st.f st.g + kw.1 + kw.2) % 4294967296
  let t2 := (roundSig0 st.a + shaMaj st.a st.b st.c) % 4294967296
  { a := (t1 + t2) % 4294967296, b := st.a, c := st.b, d := st.c,
    e := (st.d + t1) % 4294967296, f := st.e, g := st.f, hh := st.g }

/-- Process one block: 64 rounds, then add into the running hash. -/
def shaBlock (st : ShaState) (block : List Nat) : ShaState :=
  let w := (shaK.zip (shaSchedule block)).foldl shaRound st
  { a := (st.a + w.a) % 4294967296, b := (st.b + w.b) % 4294967296,
    c := (st.c + w.c) % 4294967296, d := (st.d + w.d) % 4294967296,
    e := (st.e + w.e) % 4294967296, f := (st.f + w.f) % 4294967296,
    g := (st.g + w.g) % 4294967296, hh := (st.hh + w.hh) % 4294967296 }

/-- SHA-256 initial hash value (FIPS 180-4), written in decimal. -/
def shaInit : ShaState :=
  { a := 1779033703, b := 3144134277, c := 1013904242, d := 2773480762,
    e := 1359893119, f := 2600822924, g := 528734635, hh := 1541459225 }

/-- Lowercase hex digit. -/
def hexDigit (n : Nat) : Char := "0123456789abcdef".data.getD n '0'

/-- Eight lowercase hex characters of a 32-bit word (big-endian). -/
def hex8 (w : Nat) : List Char :=
  [hexDigit (w / 268435456 % 16), hexDigit (w / 16777216 % 16),
   hexDigit (w / 1048576 % 16), hexDigit (w / 65536 % 16),
   hexDigit (w / 4096 % 16), hexDigit (w / 256 % 16),
   hexDigit (w / 16 % 16), hexDigit (w % 16)]

/-- `hashlib.sha256(bytes).hexdigest()` as a character list. -/
def sha256hex (msg : List Nat) : List Char :=
  let fin := (blocks16 (toWords (shaPad msg))).foldl shaBlock shaInit
  hex8 fin.a ++ hex8 fin.b ++ hex8 fin.c ++ hex8 fin.d ++
    hex8 fin.e ++ hex8 fin.f ++ hex8 fin.g ++ hex8 fin.hh

/-- `hashlib.sha256(s.encode('utf-8')).hexdigest()`. -/
def sha256hexStr (s : List Char) : List Char := sha256hex (utf8Encode s)

/-! ### Name derivation (`BuildHandler._generate_build_name`, builder.py 98-126)

The source signature is
`_generate_build_name(build_slug, ref, limit=63, hash_length=6, ref_length=6)`;
the only caller (builder.py 167) uses the default arguments, which are passed
explicitly here.  (For `limit < hash_length + ref_length + 2` — excluded by the
defaults — Python's negative-index slicing would differ from the truncated
`Nat` subtraction used here.) -/

/-- `BuildHandler._generate_build_name`: the formatted
`name-hash-ref` string, lowercased. -/
def generate_build_name (build_slug ref : List Char)
    (limit hash_length ref_length : Nat) : List Char :=
  let build_slug_hash := sha256hexStr build_slug
  pyLower (build_slug.take (limit - hash_length - ref_length - 2) ++
    '-' :: build_slug_hash.take hash_length ++ '-' :: ref.take ref_length)

/-- The build name actually used by the orchestrator (builder.py 167):
`self._generate_build_name(provider.get_build_slug(), ref).replace('_', '-')`. -/
def build_name_used (build_slug ref : List Char) : List Char :=
  pyReplace '_' '-' (generate_build_name build_slug ref 63 6 6)

/-! ### The k8s DNS-name regular expression

`[a-z0-9]([-a-z0-9]*[a-z0-9])?(\.[a-z0-9]([-a-z0-9]*[a-z0-9])?)*` — a
dot-separated sequence of labels, each nonempty, made of `[a-z0-9-]`, whose
first and last characters are in `[a-z0-9]`.  This definition follows the
regular expression quoted by the specification. -/

/-- Lowercase-alphanumeric character class `[a-z0-9]`. -/
def isLowerAlnum (c : Char) : Bool :=
  (decide ('a' ≤ c) && decide (c ≤ 'z')) || (decide ('0' ≤ c) && decide (c ≤ '9'))

/-- One DNS label: `[a-z0-9]([-a-z0-9]*[a-z0-9])?`, matched in full. -/
def dns_label_ok (l : List Char) : Bool :=
  match l with
  | [] => false
  | c :: rest =>
    isLowerAlnum c &&
      rest.all (fun d => isLowerAlnum d || d == '-') &&
      isLowerAlnum ((c :: rest).getLast (by simp))

/-- Full match of the k8s name regular expression. -/
def dns_name_ok (s : List Char) : Bool :=
  (s.splitOn '.').all dns_label_ok

/-! ### Progress items and the build consume loop (builder.py 235-272)

A progress item is either a pod phase change (`kind == 'pod.phasechange'`,
`payload` a phase string) or a log line (`kind == 'log'`, `payload` a JSON
string).  The loop parses each log payload with `json.loads` and reads its
optional `phase` field; log records are modelled already parsed, carrying the
raw string it forwards and that optional field (the source states
"We expect logs to be already JSON structured anyway"). -/

/-- A parsed log record: the raw JSON string plus its optional `phase`. -/
structure LogRec where
  raw : List Char
  phaseField : Option (List Char)
deriving Repr, DecidableEq

/-- One item read from the progress queue. -/
inductive ProgressItem where
  | phaseChange (payload : List Char)
  | logLine (rec : LogRec)
deriving Repr, DecidableEq

/-- An event frame written to the event stream. -/
inductive Frame where
  | waiting (message : List Char)
  | built (imageName message : List Char)
  | phaseOnly (phase : List Char)
  | rawLog (raw : List Char)
  | launching (message : List Char)
  | failed (message : List Char)
  | ready (url token message : List Char)
deriving Repr, DecidableEq

/-- The loop's mutable locals: `done`, `failed`, and whether
`log_future` has been submitted (`pool.submit(build.stream_logs)`). -/
structure LoopState where
  done : Bool
  failed : Bool
  logStarted : Bool
deriving Repr, DecidableEq

/-- Loop state at entry: `done = False`, `failed = False`,
`log_future = None`. -/
def loopInit : LoopState := ⟨false, false, false⟩

/-- One iteration of the consume loop body (builder.py 242-272) applied to a
dequeued item: the updated state and the frames emitted by the iteration
(empty on the `continue` branches). -/
def build_step (imageName : List Char) (s : LoopState) (p : ProgressItem) :
    LoopState × List Frame :=
  match p with
  | .phaseChange payload =>
    if payload = "Pending".data then (s, [])
    else if payload = "Deleted".data then
      ({ s with done := true },
       [.built imageName "Built image, launching...\n".data])
    else if payload = "Running".data then ({ s with logStarted := true }, [])
    else if payload = "Succeeded".data then (s, [])
    else (s, [.phaseOnly payload])
  | .logLine rec =>
    if rec.phaseField = some "failure".data then
      ({ s with failed := true }, [.rawLog rec.raw])
    else (s, [.rawLog rec.raw])

/-- Result of running the consume loop on a finite queue history:
either the loop exited (`done` became true) or it is still waiting on
`q.get()` after consuming every available item. -/
inductive LoopRes where
  | completed (final : LoopState) (frames : List Frame)
  | starved (frames : List Frame)
deriving Repr, DecidableEq

/-- `while not done: progress = await q.get(); ...` run against the listed
queue items.  Emission is modelled as always succeeding (the stream-closure
behaviour of `emit` is modelled separately by `run_emits`). -/
def run_consume_loop (imageName : List Char) :
    LoopState → List ProgressItem → LoopRes
  | s, [] => if s.done then .completed s [] else .starved []
  | s, p :: rest =>
    if s.done then .completed s [] else
      let sp := build_step imageName s p
      match run_consume_loop imageName sp.1 rest with
      | .completed fin frames => .completed fin (sp.2 ++ frames)
      | .starved frames => .starved (sp.2 ++ frames)

/-! ### The orchestrator (`BuildHandler.get`, builder.py 167-277)

Trace model of the segment that follows ref resolution: cache check, the
build session and the launch hand-off.  External collaborators are
parameters: the registry lookup outcome (`Except` error when
`get_image_manifest` raised, otherwise the truthiness of the returned
manifest), the local docker lookup outcome, and the launch session's own
events.  Stream writes are assumed to succeed here (closure is modelled by
`run_emits`). -/

/-- Events inside the launch session (`BuildHandler.launch` /
`Launcher.launch`): frames it emits and hub API calls it makes.  Kept as a
separate type so that orchestrator-level events cannot occur inside it. -/
inductive HubCall where
  | postUser (u : List Char)
  | postServer (u : List Char)
  | getUser (u : List Char)
  | deleteServer (u : List Char)
  | deleteUser (u : List Char)
deriving Repr, DecidableEq

/-- A launch-session event. -/
inductive LEv where
  | lemit (f : Frame)
  | lhub (c : HubCall)
deriving Repr, DecidableEq

/-- An observable step of the orchestrator. -/
inductive Ev where
  | emitF (f : Frame)
  | incBuilds
  | decBuilds
  | incLaunches
  | decLaunches
  | queueCreated
  | buildInstantiated
  | submitToPool
  | launchCall
  | inLaunch (e : LEv)
deriving Repr, DecidableEq

/-- How the modelled segment of `BuildHandler.get` ended. -/
inductive GetOut where
  | done
  | raisedRegistry
  | starved
deriving Repr, DecidableEq

/-- Trace of `BuildHandler.get` from the cache check (builder.py 175) to the
end of the handler, as a list of events plus an outcome.

* `use_registry` — `self.settings['use_registry']`;
* `manifestFound` — outcome of `await self.registry.get_image_manifest(...)`:
  `.error ()` if the call raised, otherwise `.ok` of `bool(image_manifest)`;
* `localFound` — whether `docker_client.images.get(image_name)` succeeded
  (its `ImageNotFound` is caught and means a build, builder.py 181-188);
* `items` — the progress-queue history;
* `launchEvs` — the events of `await self.launch()` when it runs. -/
def handler_get_trace (use_registry : Bool)
    (manifestFound : Except Unit Bool) (localFound : Bool)
    (imageName : List Char) (items : List ProgressItem)
    (launchEvs : List LEv) : List Ev × GetOut :=
  let found : Except Unit Bool :=
    if use_registry then manifestFound else .ok localFound
  match found with
  | .error _ => ([], .raisedRegistry)
  | .ok image_found =>
    if image_found then
      (Ev.emitF (.built imageName "Found built image, launching...\n".data) ::
        Ev.launchCall :: launchEvs.map Ev.inLaunch, .done)
    else
      let before : List Ev :=
        [.queueCreated, .buildInstantiated, .incBuilds, .submitToPool,
         .emitF (.waiting "Waiting for build to start...\n".data)]
      match run_consume_loop imageName loopInit items with
      | .starved frames => (before ++ frames.map Ev.emitF, .starved)
      | .completed fin frames =>
        let buildPart := before ++ frames.map Ev.emitF ++ [Ev.decBuilds]
        if fin.failed then (buildPart, .done)
        else
          (buildPart ++ Ev.incLaunches :: Ev.launchCall ::
            launchEvs.map Ev.inLaunch ++ [Ev.decLaunches], .done)

/-! ### `Launcher.username_from_repo` (launcher.py 18-20, 43-68) -/

/-- `_ssh_repo_pat = re.compile(r'.*@.*\:')` tested with `re.match`: the
string has some `'@'` followed (not necessarily immediately) by some `':'`,
with no newline before that `':'` (`.` does not match a newline; taking the
first `'@'` of the newline-free head is equivalent). -/
def ssh_repo_match (s : List Char) : Bool :=
  match (s.takeWhile fun c => c ≠ '\n').dropWhile fun c => c ≠ '@' with
  | [] => false
  | _ :: rest => rest.contains ':'

/-- `prefix[:-4]` when the name ends in `.git`, else unchanged
(launcher.py 59-61). -/
def stripDotGit (p : List Char) : List Char :=
  if ".git".data.isSuffixOf p then p.take (p.length - 4) else p

/-- `'{}-{}'.format(prefix[:15], prefix[-15:])` when longer than 32
characters, else unchanged (launcher.py 63-65). -/
def truncate32 (p : List Char) : List Char :=
  if 32 < p.length then p.take 15 ++ '-' :: p.drop (p.length - 15) else p

/-- `Launcher.username_from_repo(repo)`.  `parsedPath` stands for
`urlparse(repo).path` (Python standard library, external to this code) and is
only consulted on the non-ssh branch; `suffix` stands for the result of
`''.join(random.choices(SUFFIX_CHARS, k=SUFFIX_LENGTH))`, the random
8-character suffix. -/
def username_from_repo (repo parsedPath suffix : List Char) : List Char :=
  let path :=
    if ¬listContains "://".data repo ∧ ssh_repo_match repo then
      afterFirst ':' repo
    else parsedPath
  let p0 := pyLower (pyReplace '/' '-' (pyStrip '/' path))
  truncate32 (stripDotGit p0) ++ '-' :: suffix

/-- The derivation claimed for the ssh branch, read literally: the portion
after the first colon, lowercased, slashes replaced by hyphens, a trailing
`.git` stripped, truncated to `first15-last15` past 32 characters, suffix
appended.  (No slash stripping at the ends.) -/
def claimed_ssh_username (repo suffix : List Char) : List Char :=
  let p0 := pyReplace '/' '-' (pyLower (afterFirst ':' repo))
  truncate32 (stripDotGit p0) ++ '-' :: suffix

/-- The amended derivation for the ssh branch: as claimed, but the portion
after the first colon first has leading and trailing slashes stripped. -/
def amended_ssh_username (repo suffix : List Char) : List Char :=
  let p0 := pyReplace '/' '-' (pyLower (pyStrip '/' (afterFirst ':' repo)))
  truncate32 (stripDotGit p0) ++ '-' :: suffix

/-! ### Token minting (launcher.py 154)

`base64.urlsafe_b64encode(uuid.uuid4().bytes).decode('ascii').rstrip('=\n')`.
`uuid.uuid4().bytes` is the external random source: 16 bytes.  The encoding
is the standard base64 of RFC 4648 with the URL-safe alphabet and `'='`
padding, as implemented by the Python standard library. -/

/-- The URL-safe base64 alphabet. -/
def b64_alphabet : List Char :=
  "ABCDEFGHIJKLMNOPQRSTUVWXYZabcdefghijklmnopqrstuvwxyz0123456789-_".data

/-- The alphabet character of a 6-bit value. -/
def b64url_char (v : Nat) : Char :=
  if h : v < b64_alphabet.length then b64_alphabet.get ⟨v, h⟩ else 'A'

/-- `base64.urlsafe_b64encode` on a byte list: 3-byte groups become 4
characters; a trailing group of 2 or 1 bytes is padded with `'='`. -/
def urlsafe_b64encode : List Nat → List Char
  | b0 :: b1 :: b2 :: rest =>
    b64url_char (b0 / 4) :: b64url_char (b0 % 4 * 16 + b1 / 16) ::
      b64url_char (b1 % 16 * 4 + b2 / 64) :: b64url_char (b2 % 64) ::
      urlsafe_b64encode rest
  | [b0, b1] =>
    [b64url_char (b0 / 4), b64url_char (b0 % 4 * 16 + b1 / 16),
     b64url_char (b1 % 16 * 4), '=']
  | [b0] => [b64url_char (b0 / 4), b64url_char (b0 % 4 * 16), '=', '=']
  | [] => []

/-- The minted token for the given random bytes:
`urlsafe_b64encode(bytes).rstrip('=\n')`. -/
def mint_token (bytes : List Nat) : List Char :=
  pyRstrip ['=', '\n'] (urlsafe_b64encode bytes)

/-! ### `Launcher.abort_launch` and `Launcher.launch` (launcher.py 73-213)

Hub API traffic is modelled as a trace of `HubCall`s; hub responses are
parameters.  Per the specification's design notes, the stray tokens in the
source are ignored, the synchronous inner functions `check`/`wait_up` are
treated as the asynchronous callables handed to `exponential_backoff`, and
the unbound `image`/`self.settings` references inside `abort_launch` are
treated as parameters.  `exponential_backoff` (an external JupyterHub
utility) repeatedly awaits its callable until it returns true or the
deadline passes, raising a timeout error at the deadline; the poll outcomes
the hub would return before the deadline are given as a list, whose
exhaustion is the deadline. -/

/-- Truthiness of the `server` and `pending` fields of a
`GET users/{name}` body. -/
structure UserBody where
  server : Bool
  pending : Bool
deriving Repr, DecidableEq

/-- The backoff polling inside `abort_launch` (launcher.py 86-100): repeat
`GET users/{username}` until `not (body['server'] or body['pending'])`;
returns the calls made and whether the check succeeded before the
deadline. -/
def backoff_check_stopped (u : List Char) : List UserBody → List HubCall × Bool
  | [] => ([], false)
  | b :: rest =>
    if b.server ∨ b.pending then
      let r := backoff_check_stopped u rest
      (.getUser u :: r.1, r.2)
    else ([.getUser u], true)

/-- `Launcher.abort_launch(username, server)`: the hub calls made and whether
the coroutine completed (false when the backoff raised a timeout, which
propagates and skips the final user deletion).  `deleteServerCode` is the
status of `DELETE users/{username}/server`; `polls` the poll outcomes. -/
def abort_launch (u : List Char) (server : Bool) (deleteServerCode : Nat)
    (polls : List UserBody) : List HubCall × Bool :=
  if server then
    if deleteServerCode = 202 then
      let r := backoff_check_stopped u polls
      if r.2 then (.deleteServer u :: r.1 ++ [.deleteUser u], true)
      else (.deleteServer u :: r.1, false)
    else ([.deleteServer u, .deleteUser u], true)
  else ([.deleteUser u], true)

/-- The backoff polling inside `launch` (launcher.py 171-190): `wait_up`
returns true if `body['server']` is truthy, else true if the abort future is
done, else false.  `polls` lists the truthiness of `body['server']` for the
successive `GET users/{username}` responses before the deadline. -/
def wait_for_server (u : List Char) (abortSet : Bool) :
    List Bool → List HubCall × Bool
  | [] => ([], false)
  | b :: rest =>
    if b ∨ abortSet then ([.getUser u], true)
    else
      let r := wait_for_server u abortSet rest
      (.getUser u :: r.1, r.2)

/-- How `Launcher.launch` ended. -/
inductive LaunchOut where
  | createUserFailed
  | abortedEarly
  | abortedAfterServer
  | serverError
  | timedOut
  | ready
deriving Repr, DecidableEq

/-- `Launcher.launch(image, username, abort_future)` as a hub-call trace plus
outcome.

* `createOk` — whether `POST users/{username}` succeeded (an `HTTPError` is
  re-raised as a 500 with no further calls, launcher.py 136-146);
* `abortAtCreate` — whether the abort future is done at the first
  `should_abort()` check (launcher.py 148);
* `serverOk`/`serverCode` — outcome and status of `POST
  users/{username}/server` (an `HTTPError` is re-raised as a 500 with no
  teardown, launcher.py 192-201; a 202 enters the wait loop);
* `waitPolls` — `body['server']` truthiness per wait-loop poll;
* `abortAtEnd` — whether the abort future is done at the final check
  (launcher.py 203), also consulted by `wait_up`;
* `tdCode`/`tdPolls` — responses seen by `abort_launch` when it runs.

The wait loop runs only on a `202` (launcher.py 167-190); `launch_wait`
gives its calls and whether it finished before the deadline. -/
def launch_wait (u : List Char) (abortAtEnd : Bool) (serverCode : Nat)
    (waitPolls : List Bool) : List HubCall × Bool :=
  if serverCode = 202 then wait_for_server u abortAtEnd waitPolls
  else ([], true)

/-- `Launcher.launch` itself; parameters as documented above. -/
def launch_calls (u : List Char) (createOk abortAtCreate : Bool)
    (serverOk : Bool) (serverCode : Nat) (waitPolls : List Bool)
    (abortAtEnd : Bool) (tdCode : Nat) (tdPolls : List UserBody) :
    List HubCall × LaunchOut :=
  if ¬createOk then ([.postUser u], .createUserFailed)
  else if abortAtCreate then
    (.postUser u :: (abort_launch u false tdCode tdPolls).1, .abortedEarly)
  -- the token is minted here (launcher.py 154), then the server requested
  else if ¬serverOk then ([.postUser u, .postServer u], .serverError)
  else if ¬(launch_wait u abortAtEnd serverCode waitPolls).2 then
    (.postUser u :: .postServer u ::
      (launch_wait u abortAtEnd serverCode waitPolls).1, .timedOut)
  else if abortAtEnd then
    (.postUser u :: .postServer u ::
      (launch_wait u abortAtEnd serverCode waitPolls).1 ++
        (abort_launch u true tdCode tdPolls).1, .abortedAfterServer)
  else
    (.postUser u :: .postServer u ::
      (launch_wait u abortAtEnd serverCode waitPolls).1, .ready)

/-! ### The event-stream sink (`BuildHandler.emit` / `on_finish` /
`keep_alive`, builder.py 38-74)

The connection is modelled by the number of writes it still accepts; a write
against an exhausted connection raises `StreamClosedError`, which `emit`
turns into `web.Finish` — Tornado then finishes the request without calling
`send_error` and runs `on_finish`. -/

/-- Handler-visible stream state. -/
structure SinkState where
  writesLeft : Nat
  frames : List Frame
  keepaliveOn : Bool
  buildFinished : Bool
  /-- `none`: no `_abort_launch` future; `some b`: a future whose `done()`
  is `b`. -/
  abortFuture : Option Bool
deriving Repr, DecidableEq

/-- `BuildHandler.emit`: write one `data:` frame, or raise (modelled as
`.error ()`) when the stream is closed. -/
def sink_emit (f : Frame) (st : SinkState) : Except Unit SinkState :=
  match st.writesLeft with
  | 0 => .error ()
  | n + 1 => .ok { st with writesLeft := n, frames := st.frames ++ [f] }

/-- `BuildHandler.on_finish`: stop the keepalive, mark the build finished,
and complete the abort future when one exists. -/
def handler_on_finish (st : SinkState) : SinkState :=
  { st with keepaliveOn := false
            buildFinished := true
            abortFuture := st.abortFuture.map fun _ => true }

/-- Run a sequence of pending emits.  The first emit that observes a closed
stream raises `web.Finish`; the handler unwinds (none of the remaining
emits run), Tornado finishes the request and `on_finish` fires.  No error
frame is written on this path (`send_error` is reserved for genuine
errors). -/
def run_emits (st : SinkState) : List Frame → SinkState
  | [] => st
  | f :: rest =>
    match sink_emit f st with
    | .ok st2 => run_emits st2 rest
    | .error _ => handler_on_finish st

/-- `BuildHandler.keep_alive` observed for `ticks` wake-ups: the number of
`:keepalive` comment frames written.  Each wake-up checks the flag and
returns if it is cleared; a write on a closed stream raises
`StreamClosedError` and the loop returns. -/
def keep_alive_emits : Nat → SinkState → Nat
  | 0, _ => 0
  | ticks + 1, st =>
    if st.keepaliveOn then
      match st.writesLeft with
      | 0 => 0
      | n + 1 => 1 + keep_alive_emits ticks { st with writesLeft := n }
    else 0

end Binder

/-- Sanity check of the SHA-256 model against the published test vector for
the empty message. -/
theorem Binder.sha256_empty :
    Binder.sha256hex [] =
      "e3b0c44298fc1c149afbf4c8996fb92427ae41e4649b934ca495991b7852b855".data := by
  decide

/-- Sanity check of the SHA-256 model against the published test vector for
the message "abc". -/
theorem Binder.sha256_abc :
    Binder.sha256hexStr "abc".data =
      "ba7816bf8f01cfea414140de5dae2223b00361a396177a9cb410ff61f20015ad".data := by
  decide

namespace Binder

/-! ### Helper lemmas -/

/-- ASCII lowering either fixes a character or yields a lowercase letter. -/
theorem lowerChar_cases (c : Char) :
    lowerChar c = c ∨ lowerChar c ∈ "abcdefghijklmnopqrstuvwxyz".data := by
  unfold lowerChar
  split
  all_goals first
    | (right; decide)
    | (left; rfl)

/-- Lowering cannot produce a slash from a non-slash. -/
theorem lowerChar_ne_slash (c : Char) (hc : c ≠ '/') : lowerChar c ≠ '/' := by
  rcases lowerChar_cases c with h | h
  · rw [h]; exact hc
  · intro he
    rw [he] at h
    exact absurd h (by decide)

/-- Lowering commutes with the slash-to-hyphen substitution on one
character. -/
theorem lowerChar_replSlash (c : Char) :
    lowerChar (if c = '/' then '-' else c) =
      (if lowerChar c = '/' then '-' else lowerChar c) := by
  by_cases hc : c = '/'
  · subst hc; decide
  · rw [if_neg hc, if_neg (lowerChar_ne_slash c hc)]

/-- `lower` after `replace('/', '-')` equals `replace('/', '-')` after
`lower`. -/
theorem pyLower_pyReplace_comm (l : List Char) :
    pyLower (pyReplace '/' '-' l) = pyReplace '/' '-' (pyLower l) := by
  induction l with
  | nil => rfl
  | cons c t ih =>
    simp only [pyLower, pyReplace, List.map_cons, List.cons.injEq] at *
    exact ⟨lowerChar_replSlash c, ih⟩

end Binder

/-- C10: for a repo string without `://` that matches the ssh pattern
`.*@.*:`, `username_from_repo` derives the part before the random suffix
from the portion after the first colon with leading and trailing slashes
stripped, lowercased, slashes replaced by hyphens, a trailing `.git`
stripped and the long form truncated to `first15-last15`, then appends the
suffix.  (Amended from the claim: the source also strips `'/'` from both
ends of the portion before the other steps.) -/
theorem Binder.c10_ssh_username (repo parsedPath suffix : List Char)
    (h1 : Binder.listContains "://".data repo = false)
    (h2 : Binder.ssh_repo_match repo = true) :
    Binder.username_from_repo repo parsedPath suffix =
      Binder.amended_ssh_username repo suffix := by
  simp [Binder.username_from_repo, Binder.amended_ssh_username, h1, h2,
    Binder.pyLower_pyReplace_comm]

/-- C10 witness: the theorem applied to `git@host:owner/repo.git`. -/
theorem Binder.c10_witness :
    Binder.username_from_repo "git@host:owner/repo.git".data []
        "abcd1234".data =
      Binder.amended_ssh_username "git@host:owner/repo.git".data
        "abcd1234".data :=
  Binder.c10_ssh_username _ _ _ (by decide) (by decide)

/-- C10 counterexample: `git@host:/owner/repo.git` is in the claim's scope
(no `://`, matches the ssh pattern), but the source strips the leading slash
before replacing slashes with hyphens, while the claim's literal pipeline
would keep it as a leading hyphen. -/
theorem Binder.c10_counterexample :
    Binder.listContains "://".data "git@host:/owner/repo.git".data = false ∧
    Binder.ssh_repo_match "git@host:/owner/repo.git".data = true ∧
    Binder.username_from_repo "git@host:/owner/repo.git".data []
        "abcd1234".data ≠
      Binder.claimed_ssh_username "git@host:/owner/repo.git".data
        "abcd1234".data := by
  decide

/-- C1 (amended): in the build consume loop, the only progress item that
sets the termination flag `done` is `PhaseChange` with payload `Deleted`; a
phase payload outside Pending/Deleted/Running/Succeeded (such as
`FailedUnrecoverable`) is forwarded as a phase-only frame and leaves the
state unchanged; a log line — whether or not its payload carries
`phase == 'failure'` — never sets `done`. -/
theorem Binder.c1_only_deleted_terminates (im : List Char)
    (s : Binder.LoopState) (payload : List Char) (rec : Binder.LogRec)
    (h1 : payload ≠ "Pending".data) (h2 : payload ≠ "Deleted".data)
    (h3 : payload ≠ "Running".data) (h4 : payload ≠ "Succeeded".data) :
    (∀ p : Binder.ProgressItem,
      ((Binder.build_step im s p).1.done = true) ↔
        (s.done = true ∨ p = .phaseChange "Deleted".data)) ∧
    Binder.build_step im s (.phaseChange payload) =
      (s, [Binder.Frame.phaseOnly payload]) ∧
    (Binder.build_step im s (.logLine rec)).1.done = s.done := by
  refine ⟨?_, ?_, ?_⟩
  · intro p
    cases p with
    | phaseChange pl =>
      by_cases e1 : pl = "Pending".data
      · subst e1
        simp [Binder.build_step]
      · by_cases e2 : pl = "Deleted".data
        · subst e2
          simp [Binder.build_step]
        · by_cases e3 : pl = "Running".data
          · subst e3
            simp [Binder.build_step]
          · by_cases e4 : pl = "Succeeded".data
            · subst e4
              simp [Binder.build_step]
            · simp [Binder.build_step, e1, e2, e3, e4]
    | logLine r =>
      by_cases hr : r.phaseField = some "failure".data <;>
        simp [Binder.build_step, hr]
  · simp [Binder.build_step, h1, h2, h3, h4]
  · by_cases hr : rec.phaseField = some "failure".data <;>
      simp [Binder.build_step, hr]

/-- C1 witness: the theorem applied to the `FailedUnrecoverable` payload and
a failure log record. -/
theorem Binder.c1_witness :
    Binder.build_step "img".data Binder.loopInit
        (.phaseChange "FailedUnrecoverable".data) =
      (Binder.loopInit,
        [Binder.Frame.phaseOnly "FailedUnrecoverable".data]) :=
  (Binder.c1_only_deleted_terminates "img".data Binder.loopInit
    "FailedUnrecoverable".data ⟨"log".data, some "failure".data⟩
    (by decide) (by decide) (by decide) (by decide)).2.1

/-- C1 counterexample: a `PhaseChange` with payload `FailedUnrecoverable`
does not terminate the consume loop — after it the loop is still waiting on
the queue (`starved`), having forwarded the phase-only frame; the claim
lists it among the terminating items. -/
theorem Binder.c1_counterexample :
    Binder.run_consume_loop "img".data Binder.loopInit
        [.phaseChange "FailedUnrecoverable".data] =
      .starved [Binder.Frame.phaseOnly "FailedUnrecoverable".data] := by
  decide

/-- C3 (amended): when the registry manifest lookup raises, the exception
propagates out of the orchestrator — no build driver is instantiated and no
progress channel is created; only a lookup that returns an empty manifest is
treated as a cache miss that proceeds to a build. -/
theorem Binder.c3_registry_error_is_fatal (localFound : Bool)
    (imageName : List Char) (items : List Binder.ProgressItem)
    (launchEvs : List Binder.LEv) :
    Binder.handler_get_trace true (.error ()) localFound imageName items
        launchEvs = ([], .raisedRegistry) ∧
    Binder.Ev.buildInstantiated ∈
      (Binder.handler_get_trace true (.ok false) localFound imageName items
        launchEvs).1 := by
  constructor
  · rfl
  · cases hL : Binder.run_consume_loop imageName Binder.loopInit items with
    | completed fin frames =>
      by_cases hf : fin.failed <;>
        simp [Binder.handler_get_trace, hL, hf]
    | starved frames =>
      simp [Binder.handler_get_trace, hL]

/-- C3 counterexample: with a raising registry lookup the orchestrator does
not proceed to a build — the trace is empty and the outcome is the
propagated registry error, while the claim says it proceeds to instantiate
and run a build. -/
theorem Binder.c3_counterexample :
    Binder.handler_get_trace true (.error ()) false "img".data [] [] =
      ([], .raisedRegistry) ∧
    Binder.Ev.buildInstantiated ∉
      (Binder.handler_get_trace true (.error ()) false "img".data [] []).1 := by
  decide

/-- C4: on the cache-hit fast path the source runs the launch session
without ever touching the `inprogress_launches` gauge: the trace contains
the launch call but neither a gauge increment nor a gauge decrement,
violating the gauge invariant the claim states. -/
theorem Binder.c4_cache_hit_launch_gauge_skipped :
    Binder.Ev.launchCall ∈
      (Binder.handler_get_trace true (.ok true) false "img".data [] []).1 ∧
    Binder.Ev.incLaunches ∉
      (Binder.handler_get_trace true (.ok true) false "img".data [] []).1 ∧
    Binder.Ev.decLaunches ∉
      (Binder.handler_get_trace true (.ok true) false "img".data [] []).1 := by
  decide

/-- C6: whenever the cache check finds the image (`image_found` true, via
either the registry or the local docker daemon), the orchestrator emits
exactly the built frame with the image name and the message
`Found built image, launching...\n` and hands over to the launch session; no
progress channel is created and no build driver is instantiated. -/
theorem Binder.c6_cache_hit (use_registry : Bool)
    (manifestFound : Except Unit Bool) (localFound : Bool)
    (imageName : List Char) (items : List Binder.ProgressItem)
    (launchEvs : List Binder.LEv)
    (h : (if use_registry then manifestFound else .ok localFound) =
      .ok true) :
    Binder.handler_get_trace use_registry manifestFound localFound imageName
        items launchEvs =
      (Binder.Ev.emitF
          (.built imageName "Found built image, launching...\n".data) ::
        Binder.Ev.launchCall :: launchEvs.map Binder.Ev.inLaunch, .done) ∧
    Binder.Ev.queueCreated ∉
      (Binder.handler_get_trace use_registry manifestFound localFound
        imageName items launchEvs).1 ∧
    Binder.Ev.buildInstantiated ∉
      (Binder.handler_get_trace use_registry manifestFound localFound
        imageName items launchEvs).1 := by
  have ht : Binder.handler_get_trace use_registry manifestFound localFound
      imageName items launchEvs =
      (Binder.Ev.emitF
          (.built imageName "Found built image, launching...\n".data) ::
        Binder.Ev.launchCall :: launchEvs.map Binder.Ev.inLaunch, .done) := by
    unfold Binder.handler_get_trace
    rw [h]
    rfl
  refine ⟨ht, ?_, ?_⟩ <;> rw [ht] <;> simp

/-- C6 witness: the theorem applied to a local-docker cache hit. -/
theorem Binder.c6_witness :
    Binder.handler_get_trace false (.ok false) true "img".data [] [] =
      (Binder.Ev.emitF
          (.built "img".data "Found built image, launching...\n".data) ::
        Binder.Ev.launchCall :: [], .done) :=
  (Binder.c6_cache_hit false (.ok false) true "img".data [] [] rfl).1

namespace Binder

/-- Frames forwarded by the build loop contain no launch call. -/
theorem count_launchCall_emitF (fs : List Frame) :
    (fs.map Ev.emitF).count Ev.launchCall = 0 :=
  List.count_eq_zero.mpr (by simp)

/-- Launch-session events contain no orchestrator launch call. -/
theorem count_launchCall_inLaunch (ls : List LEv) :
    (ls.map Ev.inLaunch).count Ev.launchCall = 0 :=
  List.count_eq_zero.mpr (by simp)

/-- Once the keepalive flag is cleared, every wake-up of the keepalive loop
returns without writing. -/
theorem keep_alive_stopped (st : SinkState) (h : st.keepaliveOn = false) :
    ∀ ticks, keep_alive_emits ticks st = 0 := by
  intro t
  cases t <;> simp [keep_alive_emits, h]

end Binder

/-- C5: for a request that reaches the build path (cache miss) and whose
consume loop runs to completion, the orchestrator performs exactly one
launch call when the build did not fail and none when it failed. -/
theorem Binder.c5_launch_follows_build (use_registry : Bool)
    (manifestFound : Except Unit Bool) (localFound : Bool)
    (imageName : List Char) (items : List Binder.ProgressItem)
    (launchEvs : List Binder.LEv) (fin : Binder.LoopState)
    (frames : List Binder.Frame)
    (hmiss : (if use_registry then manifestFound else .ok localFound) =
      .ok false)
    (hloop : Binder.run_consume_loop imageName Binder.loopInit items =
      .completed fin frames) :
    (Binder.handler_get_trace use_registry manifestFound localFound imageName
        items launchEvs).1.count Binder.Ev.launchCall =
      if fin.failed then 0 else 1 := by
  unfold Binder.handler_get_trace
  rw [hmiss, hloop]
  by_cases hf : fin.failed <;>
    simp [hf, List.count_append, List.count_cons,
      Binder.count_launchCall_emitF, Binder.count_launchCall_inLaunch]

/-- C5 witness: a build queue history ending in `Deleted` with no failure
log yields exactly one launch call. -/
theorem Binder.c5_witness :
    (Binder.handler_get_trace false (.ok false) false "img".data
        [.phaseChange "Deleted".data] []).1.count Binder.Ev.launchCall = 1 := by
  have h := Binder.c5_launch_follows_build false (.ok false) false "img".data
    [.phaseChange "Deleted".data] [] ⟨true, false, false⟩
    [.built "img".data "Built image, launching...\n".data] rfl (by decide)
  simpa using h

/-- C9: once an emit observes the closed stream, the handler writes no
further event frames (the frames are exactly those accepted before closure —
in particular no error frame is appended), the keepalive flag is cleared so
the keepalive loop writes nothing more, and the abort future, when a launch
session is running, is completed. -/
theorem Binder.c9_stream_close (st : Binder.SinkState)
    (evs : List Binder.Frame) (hclose : st.writesLeft < evs.length) :
    (Binder.run_emits st evs).frames =
      st.frames ++ evs.take st.writesLeft ∧
    (Binder.run_emits st evs).keepaliveOn = false ∧
    (st.abortFuture = some false →
      (Binder.run_emits st evs).abortFuture = some true) ∧
    (∀ ticks, Binder.keep_alive_emits ticks (Binder.run_emits st evs) = 0) := by
  induction evs generalizing st with
  | nil => exact absurd hclose (by simp)
  | cons f rest ih =>
    obtain ⟨wl, fr, ka, bf, ab⟩ := st
    cases wl with
    | zero =>
      have red : Binder.run_emits ⟨0, fr, ka, bf, ab⟩ (f :: rest) =
          Binder.handler_on_finish ⟨0, fr, ka, bf, ab⟩ := rfl
      rw [red]
      refine ⟨by simp [Binder.handler_on_finish], rfl, ?_, ?_⟩
      · intro ha
        simp only at ha
        simp [Binder.handler_on_finish, ha]
      · exact Binder.keep_alive_stopped _ rfl
    | succ n =>
      have red : Binder.run_emits ⟨n + 1, fr, ka, bf, ab⟩ (f :: rest) =
          Binder.run_emits ⟨n, fr ++ [f], ka, bf, ab⟩ rest := rfl
      have hlt : (⟨n, fr ++ [f], ka, bf, ab⟩ :
          Binder.SinkState).writesLeft < rest.length := by
        simp only [List.length_cons] at hclose
        simpa using Nat.lt_of_succ_lt_succ hclose
      obtain ⟨h1, h2, h3, h4⟩ := ih ⟨n, fr ++ [f], ka, bf, ab⟩ hlt
      rw [red]
      refine ⟨?_, h2, h3, h4⟩
      rw [h1]
      simp

/-- C9 witness: the theorem applied to a stream that accepts one more write
before closing, while a launch session is running. -/
theorem Binder.c9_witness :
    (Binder.run_emits ⟨1, [], true, false, some false⟩
        [.waiting "w\n".data, .launching "l\n".data]).frames =
      [Binder.Frame.waiting "w\n".data] ∧
    (Binder.run_emits ⟨1, [], true, false, some false⟩
        [.waiting "w\n".data, .launching "l\n".data]).keepaliveOn = false ∧
    (Binder.run_emits ⟨1, [], true, false, some false⟩
        [.waiting "w\n".data, .launching "l\n".data]).abortFuture =
      some true ∧
    Binder.keep_alive_emits 3
      (Binder.run_emits ⟨1, [], true, false, some false⟩
        [.waiting "w\n".data, .launching "l\n".data]) = 0 := by
  obtain ⟨h1, h2, h3, h4⟩ :=
    Binder.c9_stream_close ⟨1, [], true, false, some false⟩
      [.waiting "w\n".data, .launching "l\n".data] (by decide)
  exact ⟨by simpa using h1, h2, h3 rfl, h4 3⟩

/-- C2: evaluating the name derivation at slug `a/b`, ref `xyz`: the
resulting build name keeps the slash of the slug and therefore fails the
k8s DNS-name regular expression that the code's own TODO says it must
satisfy. -/
theorem Binder.c2_failing_eval :
    Binder.build_name_used "a/b".data "xyz".data = "a/b-c14cdd-xyz".data ∧
    Binder.dns_name_ok "a/b-c14cdd-xyz".data = false := by
  constructor
  · decide
  · decide

namespace Binder

/-- Every call made by the teardown poll loop is a `GET users/{username}`. -/
theorem backoff_calls_getUser (u : List Char) (polls : List UserBody) :
    ∀ c ∈ (backoff_check_stopped u polls).1, c = .getUser u := by
  induction polls with
  | nil => simp [backoff_check_stopped]
  | cons b rest ih =>
    intro c hc
    by_cases hb : (b.server = true ∨ b.pending = true)
    · simp only [backoff_check_stopped, if_pos hb] at hc
      rcases List.mem_cons.mp hc with rfl | hc
      · rfl
      · exact ih c hc
    · simp only [backoff_check_stopped, if_neg hb] at hc
      simpa using hc

/-- The teardown poll loop succeeds before the deadline exactly when some
available poll body has both `server` and `pending` false. -/
theorem backoff_success_any (u : List Char) (polls : List UserBody) :
    (backoff_check_stopped u polls).2 =
      polls.any fun b => !b.server && !b.pending := by
  induction polls with
  | nil => rfl
  | cons b rest ih =>
    by_cases hb : (b.server = true ∨ b.pending = true)
    · have hfalse : (!b.server && !b.pending) = false := by
        rcases hb with hb | hb <;> simp [hb]
      simp [backoff_check_stopped, if_pos hb, List.any_cons, hfalse, ih]
    · push_neg at hb
      simp [backoff_check_stopped, hb.1, hb.2, List.any_cons]

/-- A teardown with `server=True` always starts by deleting the server. -/
theorem abort_launch_head (u : List Char) (tdCode : Nat)
    (polls : List UserBody) :
    (abort_launch u true tdCode polls).1.head? = some (.deleteServer u) := by
  unfold abort_launch
  by_cases hc : tdCode = 202
  · by_cases h2 : (backoff_check_stopped u polls).2 = true <;>
      simp [hc, h2]
  · simp [hc]

/-- A teardown with `server=True` deletes the user exactly when it completes
(the poll did not hit the deadline). -/
theorem deleteUser_mem_abort (u : List Char) (tdCode : Nat)
    (polls : List UserBody) :
    (HubCall.deleteUser u ∈ (abort_launch u true tdCode polls).1) ↔
      (abort_launch u true tdCode polls).2 = true := by
  unfold abort_launch
  by_cases hc : tdCode = 202
  · by_cases h2 : (backoff_check_stopped u polls).2 = true
    · simp [hc, h2]
    · simp only [hc, if_pos rfl, h2, if_neg, Bool.false_eq_true,
        iff_false, if_true]
      simp [h2]
      intro hmem
      have := backoff_calls_getUser u polls _ hmem
      simp at this
  · simp [hc]

end Binder

/-- C8 (amended): whenever a launch is aborted after the server request was
dispatched, teardown runs `abort_launch` with `server=True`, whose first
call is `DELETE users/{username}/server`; on a `202` it polls
`GET users/{username}` (only such calls) until a body has `server` and
`pending` false or the deadline; `DELETE users/{username}` then follows in
every abort in which the poll did not hit the deadline (a deadline raises a
timeout that propagates and skips the user deletion); an abort before the
server request deletes only the user. -/
theorem Binder.c8_abort_teardown (u : List Char) (tdCode : Nat)
    (tdPolls : List Binder.UserBody) (createOk abortAtCreate serverOk : Bool)
    (serverCode : Nat) (waitPolls : List Bool) (abortAtEnd : Bool)
    (hout : (Binder.launch_calls u createOk abortAtCreate serverOk serverCode
      waitPolls abortAtEnd tdCode tdPolls).2 = .abortedAfterServer) :
    (∃ pre, (Binder.launch_calls u createOk abortAtCreate serverOk serverCode
        waitPolls abortAtEnd tdCode tdPolls).1 =
      pre ++ (Binder.abort_launch u true tdCode tdPolls).1) ∧
    (Binder.abort_launch u true tdCode tdPolls).1.head? =
      some (.deleteServer u) ∧
    (∀ c ∈ (Binder.backoff_check_stopped u tdPolls).1, c = .getUser u) ∧
    ((Binder.backoff_check_stopped u tdPolls).2 =
      tdPolls.any fun b => !b.server && !b.pending) ∧
    (Binder.HubCall.deleteUser u ∈
        (Binder.abort_launch u true tdCode tdPolls).1 ↔
      (Binder.abort_launch u true tdCode tdPolls).2 = true) ∧
    (Binder.launch_calls u true true serverOk serverCode waitPolls abortAtEnd
        tdCode tdPolls).1 = [.postUser u, .deleteUser u] := by
  refine ⟨?_, Binder.abort_launch_head u tdCode tdPolls,
    Binder.backoff_calls_getUser u tdPolls,
    Binder.backoff_success_any u tdPolls,
    Binder.deleteUser_mem_abort u tdCode tdPolls, ?_⟩
  · unfold Binder.launch_calls at hout ⊢
    split_ifs at hout ⊢
    simp_all
    refine ⟨Binder.HubCall.postUser u :: Binder.HubCall.postServer u ::
      (Binder.launch_wait u true serverCode waitPolls).1, ?_⟩
    simp [*]
  · simp [Binder.launch_calls, Binder.abort_launch]

/-- C8 witness: the theorem applied to an abort observed after a `202`
server request whose teardown poll immediately reports the server gone. -/
theorem Binder.c8_witness :
    (Binder.abort_launch "user-x".data true 202 [⟨false, false⟩]).1.head? =
      some (.deleteServer "user-x".data) ∧
    (Binder.HubCall.deleteUser "user-x".data ∈
        (Binder.abort_launch "user-x".data true 202 [⟨false, false⟩]).1 ↔
      (Binder.abort_launch "user-x".data true 202 [⟨false, false⟩]).2 =
        true) := by
  have h := Binder.c8_abort_teardown "user-x".data 202 [⟨false, false⟩]
    true false true 202 [true] true (by decide)
  exact ⟨h.2.1, h.2.2.2.2.1⟩

/-- C8 counterexample: an abort whose teardown poll runs out of polls before
the hub reports the server stopped (the deadline) makes `abort_launch` raise
out of the backoff — `DELETE users/{username}` is never issued, although the
claim says every abort issues it. -/
theorem Binder.c8_counterexample :
    (Binder.abort_launch "user-x".data true 202 [⟨true, false⟩]).1 =
      [.deleteServer "user-x".data, .getUser "user-x".data] ∧
    Binder.HubCall.deleteUser "user-x".data ∉
      (Binder.abort_launch "user-x".data true 202 [⟨true, false⟩]).1 := by
  decide

namespace Binder

/-- Every alphabet character produced by `b64url_char` is in the URL-safe
alphabet (out-of-range values yield the default `'A'`, also a member). -/
theorem b64url_char_mem (v : Nat) : b64url_char v ∈ b64_alphabet := by
  unfold b64url_char
  split
  · exact List.get_mem _ _ _
  · decide

/-- No character of the URL-safe alphabet is stripped by `rstrip('=\n')`. -/
theorem b64url_char_not_strip (v : Nat) :
    (['=', '\n'] : List Char).contains (b64url_char v) = false := by
  have h : ∀ c ∈ b64_alphabet, (['=', '\n'] : List Char).contains c = false := by
    decide
  exact h _ (b64url_char_mem v)

/-- `b64url_char` is injective on 6-bit values (checked exhaustively). -/
theorem b64url_char_inj_fin :
    ∀ v w : Fin 64, b64url_char v.val = b64url_char w.val → v = w := by
  decide

/-- `b64url_char` is injective on values below 64. -/
theorem b64url_char_inj (v w : Nat) (hv : v < 64) (hw : w < 64)
    (h : b64url_char v = b64url_char w) : v = w :=
  congrArg Fin.val (b64url_char_inj_fin ⟨v, hv⟩ ⟨w, hw⟩ h)

/-- A list of length 16 is a 16-element literal. -/
theorem len16_exists {α : Type} (l : List α) (h : l.length = 16) :
    ∃ a0 a1 a2 a3 a4 a5 a6 a7 a8 a9 a10 a11 a12 a13 a14 a15,
      l = [a0, a1, a2, a3, a4, a5, a6, a7, a8,
           a9, a10, a11, a12, a13, a14, a15] := by
  cases l with
  | nil => simp at h
  | cons a0 l =>
  cases l with
  | nil => simp at h
  | cons a1 l =>
  cases l with
  | nil => simp at h
  | cons a2 l =>
  cases l with
  | nil => simp at h
  | cons a3 l =>
  cases l with
  | nil => simp at h
  | cons a4 l =>
  cases l with
  | nil => simp at h
  | cons a5 l =>
  cases l with
  | nil => simp at h
  | cons a6 l =>
  cases l with
  | nil => simp at h
  | cons a7 l =>
  cases l with
  | nil => simp at h
  | cons a8 l =>
  cases l with
  | nil => simp at h
  | cons a9 l =>
  cases l with
  | nil => simp at h
  | cons a10 l =>
  cases l with
  | nil => simp at h
  | cons a11 l =>
  cases l with
  | nil => simp at h
  | cons a12 l =>
  cases l with
  | nil => simp at h
  | cons a13 l =>
  cases l with
  | nil => simp at h
  | cons a14 l =>
  cases l with
  | nil => simp at h
  | cons a15 l =>
  cases l with
  | cons x l =>
    simp only [List.length_cons] at h
    omega
  | nil =>
    exact ⟨a0, a1, a2, a3, a4, a5, a6, a7, a8, a9, a10, a11, a12, a13, a14,
      a15, rfl⟩

/-- Stripping `'='` padding from a token body made of alphabet
characters removes exactly the two padding characters. -/
theorem pyRstrip_pad (l : List Char)
    (hl : ∀ c ∈ l, (['=', '\n'] : List Char).contains c = false) :
    pyRstrip ['=', '\n'] (l ++ ['=', '=']) = l := by
  unfold pyRstrip
  rw [List.reverse_append]
  have h1 : (['=', '\n'] : List Char).contains '=' = true := by decide
  simp only [List.reverse_cons, List.reverse_nil, List.nil_append,
    List.cons_append, List.dropWhile_cons, h1, if_true]
  cases hrev : l.reverse with
  | nil =>
    simp only [List.dropWhile_nil, List.reverse_nil]
    simpa using congrArg List.reverse hrev
  | cons c t =>
    have hc : (['=', '\n'] : List Char).contains c = false := by
      refine hl c ?_
      rw [← List.mem_reverse, hrev]
      simp
    rw [List.dropWhile_cons, hc]
    simp only [Bool.false_eq_true, if_false]
    rw [← hrev, List.reverse_reverse]

/-- Closed form of the minted token on 16 bytes: 22 alphabet characters (the
two `'='` padding characters of the raw base64 output are stripped). -/
theorem mint_token_16 (a0 a1 a2 a3 a4 a5 a6 a7 a8 a9 a10 a11 a12 a13 a14
    a15 : Nat) :
    mint_token [a0, a1, a2, a3, a4, a5, a6, a7, a8,
                a9, a10, a11, a12, a13, a14, a15] =
      [b64url_char (a0 / 4), b64url_char (a0 % 4 * 16 + a1 / 16),
       b64url_char (a1 % 16 * 4 + a2 / 64), b64url_char (a2 % 64),
       b64url_char (a3 / 4), b64url_char (a3 % 4 * 16 + a4 / 16),
       b64url_char (a4 % 16 * 4 + a5 / 64), b64url_char (a5 % 64),
       b64url_char (a6 / 4), b64url_char (a6 % 4 * 16 + a7 / 16),
       b64url_char (a7 % 16 * 4 + a8 / 64), b64url_char (a8 % 64),
       b64url_char (a9 / 4), b64url_char (a9 % 4 * 16 + a10 / 16),
       b64url_char (a10 % 16 * 4 + a11 / 64), b64url_char (a11 % 64),
       b64url_char (a12 / 4), b64url_char (a12 % 4 * 16 + a13 / 16),
       b64url_char (a13 % 16 * 4 + a14 / 64), b64url_char (a14 % 64),
       b64url_char (a15 / 4), b64url_char (a15 % 4 * 16)] := by
  show pyRstrip ['=', '\n']
    ([b64url_char (a0 / 4), b64url_char (a0 % 4 * 16 + a1 / 16),
      b64url_char (a1 % 16 * 4 + a2 / 64), b64url_char (a2 % 64),
      b64url_char (a3 / 4), b64url_char (a3 % 4 * 16 + a4 / 16),
      b64url_char (a4 % 16 * 4 + a5 / 64), b64url_char (a5 % 64),
      b64url_char (a6 / 4), b64url_char (a6 % 4 * 16 + a7 / 16),
      b64url_char (a7 % 16 * 4 + a8 / 64), b64url_char (a8 % 64),
      b64url_char (a9 / 4), b64url_char (a9 % 4 * 16 + a10 / 16),
      b64url_char (a10 % 16 * 4 + a11 / 64), b64url_char (a11 % 64),
      b64url_char (a12 / 4), b64url_char (a12 % 4 * 16 + a13 / 16),
      b64url_char (a13 % 16 * 4 + a14 / 64), b64url_char (a14 % 64),
      b64url_char (a15 / 4), b64url_char (a15 % 4 * 16)] ++ ['=', '=']) = _
  refine pyRstrip_pad _ ?_
  intro c hc
  simp only [List.mem_cons, List.not_mem_nil, or_false] at hc
  rcases hc with rfl | rfl | rfl | rfl | rfl | rfl | rfl | rfl | rfl |
    rfl | rfl | rfl | rfl | rfl | rfl | rfl | rfl | rfl | rfl | rfl |
    rfl | rfl <;>
    exact b64url_char_not_strip _

end Binder

/-- C7: the minted token is the URL-safe base64 encoding, with the `'='`
padding stripped, of the 16 random bytes (128 bits): it always has exactly
22 characters, all from the URL-safe alphabet (in particular no padding
character), and distinct 128-bit inputs yield distinct tokens, so the token
carries the full 128 bits.  (That the bytes come from `uuid.uuid4()` — the
random source — is outside the translated code.) -/
theorem Binder.c7_token_encoding :
    (∀ bytes : List Nat, bytes.length = 16 → (∀ b ∈ bytes, b < 256) →
      (Binder.mint_token bytes).length = 22 ∧
      (∀ c ∈ Binder.mint_token bytes, c ∈ Binder.b64_alphabet) ∧
      '=' ∉ Binder.mint_token bytes) ∧
    (∀ bs1 bs2 : List Nat, bs1.length = 16 → bs2.length = 16 →
      (∀ b ∈ bs1, b < 256) → (∀ b ∈ bs2, b < 256) →
      Binder.mint_token bs1 = Binder.mint_token bs2 → bs1 = bs2) := by
  constructor
  · intro bytes h16 _hb
    obtain ⟨a0, a1, a2, a3, a4, a5, a6, a7, a8, a9, a10, a11, a12, a13, a14,
      a15, rfl⟩ := Binder.len16_exists bytes h16
    rw [Binder.mint_token_16]
    have hmem : ∀ c ∈ [Binder.b64url_char (a0 / 4),
        Binder.b64url_char (a0 % 4 * 16 + a1 / 16),
        Binder.b64url_char (a1 % 16 * 4 + a2 / 64),
        Binder.b64url_char (a2 % 64),
        Binder.b64url_char (a3 / 4),
        Binder.b64url_char (a3 % 4 * 16 + a4 / 16),
        Binder.b64url_char (a4 % 16 * 4 + a5 / 64),
        Binder.b64url_char (a5 % 64),
        Binder.b64url_char (a6 / 4),
        Binder.b64url_char (a6 % 4 * 16 + a7 / 16),
        Binder.b64url_char (a7 % 16 * 4 + a8 / 64),
        Binder.b64url_char (a8 % 64),
        Binder.b64url_char (a9 / 4),
        Binder.b64url_char (a9 % 4 * 16 + a10 / 16),
        Binder.b64url_char (a10 % 16 * 4 + a11 / 64),
        Binder.b64url_char (a11 % 64),
        Binder.b64url_char (a12 / 4),
        Binder.b64url_char (a12 % 4 * 16 + a13 / 16),
        Binder.b64url_char (a13 % 16 * 4 + a14 / 64),
        Binder.b64url_char (a14 % 64),
        Binder.b64url_char (a15 / 4),
        Binder.b64url_char (a15 % 4 * 16)], c ∈ Binder.b64_alphabet := by
      intro c hc
      simp only [List.mem_cons, List.not_mem_nil, or_false] at hc
      rcases hc with rfl | rfl | rfl | rfl | rfl | rfl | rfl | rfl | rfl |
        rfl | rfl | rfl | rfl | rfl | rfl | rfl | rfl | rfl | rfl | rfl |
        rfl | rfl <;>
        exact Binder.b64url_char_mem _
    refine ⟨by simp, hmem, fun hc => absurd (hmem '=' hc) (by decide)⟩
  · intro bs1 bs2 h16a h16b hba hbb heq
    obtain ⟨a0, a1, a2, a3, a4, a5, a6, a7, a8, a9, a10, a11, a12, a13, a14,
      a15, rfl⟩ := Binder.len16_exists bs1 h16a
    obtain ⟨c0, c1, c2, c3, c4, c5, c6, c7, c8, c9, c10, c11, c12, c13, c14,
      c15, rfl⟩ := Binder.len16_exists bs2 h16b
    have A0 : a0 < 256 := hba _ (by simp)
    have A1 : a1 < 256 := hba _ (by simp)
    have A2 : a2 < 256 := hba _ (by simp)
    have A3 : a3 < 256 := hba _ (by simp)
    have A4 : a4 < 256 := hba _ (by simp)
    have A5 : a5 < 256 := hba _ (by simp)
    have A6 : a6 < 256 := hba _ (by simp)
    have A7 : a7 < 256 := hba _ (by simp)
    have A8 : a8 < 256 := hba _ (by simp)
    have A9 : a9 < 256 := hba _ (by simp)
    have A10 : a10 < 256 := hba _ (by simp)
    have A11 : a11 < 256 := hba _ (by simp)
    have A12 : a12 < 256 := hba _ (by simp)
    have A13 : a13 < 256 := hba _ (by simp)
    have A14 : a14 < 256 := hba _ (by simp)
    have A15 : a15 < 256 := hba _ (by simp)
    have C0 : c0 < 256 := hbb _ (by simp)
    have C1 : c1 < 256 := hbb _ (by simp)
    have C2 : c2 < 256 := hbb _ (by simp)
    have C3 : c3 < 256 := hbb _ (by simp)
    have C4 : c4 < 256 := hbb _ (by simp)
    have C5 : c5 < 256 := hbb _ (by simp)
    have C6 : c6 < 256 := hbb _ (by simp)
    have C7 : c7 < 256 := hbb _ (by simp)
    have C8 : c8 < 256 := hbb _ (by simp)
    have C9 : c9 < 256 := hbb _ (by simp)
    have C10 : c10 < 256 := hbb _ (by simp)
    have C11 : c11 < 256 := hbb _ (by simp)
    have C12 : c12 < 256 := hbb _ (by simp)
    have C13 : c13 < 256 := hbb _ (by simp)
    have C14 : c14 < 256 := hbb _ (by simp)
    have C15 : c15 < 256 := hbb _ (by simp)
    rw [Binder.mint_token_16, Binder.mint_token_16] at heq
    simp only [List.cons.injEq, and_true] at heq
    obtain ⟨e1, e2, e3, e4, e5, e6, e7, e8, e9, e10, e11, e12, e13, e14,
      e15, e16, e17, e18, e19, e20, e21, e22⟩ := heq
    have n1 := Binder.b64url_char_inj _ _ (by omega) (by omega) e1
    have n2 := Binder.b64url_char_inj _ _ (by omega) (by omega) e2
    have n3 := Binder.b64url_char_inj _ _ (by omega) (by omega) e3
    have n4 := Binder.b64url_char_inj _ _ (by omega) (by omega) e4
    have n5 := Binder.b64url_char_inj _ _ (by omega) (by omega) e5
    have n6 := Binder.b64url_char_inj _ _ (by omega) (by omega) e6
    have n7 := Binder.b64url_char_inj _ _ (by omega) (by omega) e7
    have n8 := Binder.b64url_char_inj _ _ (by omega) (by omega) e8
    have n9 := Binder.b64url_char_inj _ _ (by omega) (by omega) e9
    have n10 := Binder.b64url_char_inj _ _ (by omega) (by omega) e10
    have n11 := Binder.b64url_char_inj _ _ (by omega) (by omega) e11
    have n12 := Binder.b64url_char_inj _ _ (by omega) (by omega) e12
    have n13 := Binder.b64url_char_inj _ _ (by omega) (by omega) e13
    have n14 := Binder.b64url_char_inj _ _ (by omega) (by omega) e14
    have n15 := Binder.b64url_char_inj _ _ (by omega) (by omega) e15
    have n16 := Binder.b64url_char_inj _ _ (by omega) (by omega) e16
    have n17 := Binder.b64url_char_inj _ _ (by omega) (by omega) e17
    have n18 := Binder.b64url_char_inj _ _ (by omega) (by omega) e18
    have n19 := Binder.b64url_char_inj _ _ (by omega) (by omega) e19
    have n20 := Binder.b64url_char_inj _ _ (by omega) (by omega) e20
    have n21 := Binder.b64url_char_inj _ _ (by omega) (by omega) e21
    have n22 := Binder.b64url_char_inj _ _ (by omega) (by omega) e22
    simp only [List.cons.injEq, and_true]
    omega

/-- C7 witness: the theorem applied to a concrete 16-byte input. -/
theorem Binder.c7_witness :
    (Binder.mint_token
      [0, 1, 2, 3, 4, 5, 6, 7, 8, 9, 10, 11, 12, 13, 14, 15]).length = 22 ∧
    '=' ∉ Binder.mint_token
      [0, 1, 2, 3, 4, 5, 6, 7, 8, 9, 10, 11, 12, 13, 14, 15] := by
  have h := Binder.c7_token_encoding.1
    [0, 1, 2, 3, 4, 5, 6, 7, 8, 9, 10, 11, 12, 13, 14, 15]
    (by decide) (by decide)
  exact ⟨h.1, h.2.2⟩
